import Mathlib

/-!
Verification development for the Dobble doctor-appointment system.

The repository's Next.js frontend (proxy routes, dashboard, assistant chat
client) is embedded directly from its TypeScript source.  The FastAPI
backend (availability resolver, conflict-checked booking, agent loop,
notification dispatcher, session store) is not part of the available
sources; those components are modelled from the specification, as marked
on each definition.
-/

namespace Dobble

/-- Appointment status, as in the Prisma schema and the frontend
`updateSchema` enum: SCHEDULED, COMPLETED, CANCELLED. -/
inductive Status where
  | SCHEDULED
  | COMPLETED
  | CANCELLED
deriving DecidableEq, Repr

/-- An appointment record: doctor reference, patient reference, scheduled
instant (minutes since an epoch), status, optional notes. -/
structure Appointment where
  id : Nat
  doctorId : String
  patientRef : String
  instant : Nat
  status : Status
  notes : Option String
deriving DecidableEq, Repr

/-- The durable appointment store, as the list of its records. -/
abbrev Store := List Appointment

/-- Whether a record is a SCHEDULED appointment of doctor `d` at instant `t`. -/
def isScheduledFor (d : String) (t : Nat) (a : Appointment) : Bool :=
  a.doctorId == d && a.instant == t && a.status == Status.SCHEDULED

/-- Whether the store holds a SCHEDULED appointment for `(d, t)`. -/
def hasScheduledAt (s : Store) (d : String) (t : Nat) : Bool :=
  s.any (isScheduledFor d t)

/-- Result of a booking attempt: the created appointment, or a conflict
(`ConflictError`: slot taken). -/
inductive BookResult where
  | created (a : Appointment)
  | conflict
deriving DecidableEq, Repr

/-- The appointment a successful booking inserts: fresh id, SCHEDULED. -/
def newAppt (nid : Nat) (d p : String) (t : Nat) (notes : Option String) : Appointment :=
  ⟨nid, d, p, t, Status.SCHEDULED, notes⟩

/-- Modelled from the spec: `bookAppointment` of the Availability Resolver
(backend `tools_impl.py`, not in the available sources).  A single atomic
conditional insert: re-verify at the moment of write that no SCHEDULED
appointment exists for `(doctor, instant)`; on conflict fail without
creating a record, otherwise create the appointment in SCHEDULED status. -/
def bookAppointment (s : Store) (nid : Nat) (d p : String) (t : Nat)
    (notes : Option String) : BookResult × Store :=
  if hasScheduledAt s d t then (BookResult.conflict, s)
  else (BookResult.created (newAppt nid d p t notes), newAppt nid d p t notes :: s)

/-- The double-booking invariant: for every doctor and instant, at most one
SCHEDULED appointment is in the store. -/
def uniqueScheduled (s : Store) : Prop :=
  ∀ d t, (s.filter (isScheduledFor d t)).length ≤ 1

/-- Whether a booking attempt produced a created appointment. -/
def isCreated : BookResult → Bool
  | BookResult.created _ => true
  | BookResult.conflict => false

/-- Modelled from the spec: concurrent booking attempts serialized by the
store's conditional insert — the attempts execute as a sequence of atomic
`bookAppointment` steps, in some arbitrary order.  Each triple is
(patientRef, notes) of one attempt at the common slot. -/
def runBookings (s : Store) (nid : Nat) (d : String) (t : Nat) :
    List (String × Option String) → List BookResult × Store
  | [] => ([], s)
  | (p, notes) :: rest =>
    let step := bookAppointment s nid d p t notes
    let out := runBookings step.2 (nid + 1) d t rest
    (step.1 :: out.1, out.2)

lemma filter_eq_nil_of_any_false {p : Appointment → Bool} {s : Store}
    (h : s.any p = false) : s.filter p = [] := by
  induction s with
  | nil => rfl
  | cons a s ih =>
    simp only [List.any_cons, Bool.or_eq_false_iff] at h
    simp [List.filter_cons, h.1, ih h.2]

lemma isScheduledFor_newAppt (d p : String) (t : Nat) (nid : Nat)
    (notes : Option String) (d' : String) (t' : Nat) :
    isScheduledFor d' t' (newAppt nid d p t notes) = (d == d' && t == t') := by
  simp [isScheduledFor, newAppt, BEq.comm]

lemma hasScheduledAt_after_insert (s : Store) (nid : Nat) (d p : String)
    (t : Nat) (notes : Option String) :
    hasScheduledAt (newAppt nid d p t notes :: s) d t = true := by
  simp [hasScheduledAt, List.any_cons, isScheduledFor, newAppt]

/-- Booking preserves the invariant: true when the slot was taken (store
unchanged) and when it was free (the inserted record is the only SCHEDULED
one at its slot). -/
lemma bookAppointment_preserves (s : Store) (nid : Nat) (d p : String)
    (t : Nat) (notes : Option String) (hinv : uniqueScheduled s) :
    uniqueScheduled (bookAppointment s nid d p t notes).2 := by
  unfold bookAppointment
  by_cases h : hasScheduledAt s d t
  · simpa [h] using hinv
  · simp only [Bool.not_eq_true] at h
    simp only [h, Bool.false_eq_true, if_false]
    intro d' t'
    rw [List.filter_cons]
    by_cases hdt : d = d' ∧ t = t'
    · obtain ⟨rfl, rfl⟩ := hdt
      rw [filter_eq_nil_of_any_false (p := isScheduledFor d t) h]
      simp [isScheduledFor_newAppt]
    · have : isScheduledFor d' t' (newAppt nid d p t notes) = false := by
        rw [isScheduledFor_newAppt]
        rcases not_and_or.mp hdt with hd | ht
        · simp [beq_eq_false_iff_ne, hd]
        · simp [beq_eq_false_iff_ne, ht]
      simp only [this, Bool.false_eq_true, if_false]
      exact hinv d' t'

/-- Once the slot is taken, every further attempt at it conflicts and the
store is unchanged. -/
lemma runBookings_taken (s : Store) (nid : Nat) (d : String) (t : Nat)
    (reqs : List (String × Option String)) (h : hasScheduledAt s d t = true) :
    runBookings s nid d t reqs = (reqs.map (fun _ => BookResult.conflict), s) := by
  induction reqs generalizing nid with
  | nil => rfl
  | cons r rest ih =>
    obtain ⟨p, notes⟩ := r
    simp [runBookings, bookAppointment, h, ih]

/-- C2: `bookAppointment` is atomic on error: if a SCHEDULED appointment
already exists for `(doctorId, instant)` at the moment of write, it returns
`ConflictError` and the store is unchanged; otherwise it creates exactly one
new appointment in SCHEDULED status and returns it. -/
theorem bookAppointment_contract (s : Store) (nid : Nat) (d p : String)
    (t : Nat) (notes : Option String) :
    (hasScheduledAt s d t = true →
      bookAppointment s nid d p t notes = (BookResult.conflict, s)) ∧
    (hasScheduledAt s d t = false →
      bookAppointment s nid d p t notes =
        (BookResult.created (newAppt nid d p t notes), newAppt nid d p t notes :: s) ∧
      (newAppt nid d p t notes).status = Status.SCHEDULED) := by
  constructor
  · intro h
    simp [bookAppointment, h]
  · intro h
    exact ⟨by simp [bookAppointment, h], rfl⟩

theorem bookAppointment_contract_witness :
    bookAppointment [newAppt 1 "dr-smith" "p1" 900 none] 2 "dr-smith" "p2" 900 none
        = (BookResult.conflict, [newAppt 1 "dr-smith" "p1" 900 none]) ∧
    bookAppointment [] 1 "dr-smith" "p1" 900 none
        = (BookResult.created (newAppt 1 "dr-smith" "p1" 900 none),
           [newAppt 1 "dr-smith" "p1" 900 none]) :=
  ⟨(bookAppointment_contract [newAppt 1 "dr-smith" "p1" 900 none]
      2 "dr-smith" "p2" 900 none).1 (by decide),
   ((bookAppointment_contract [] 1 "dr-smith" "p1" 900 none).2 (by decide)).1⟩

/-- C1: at most one SCHEDULED appointment per (doctor, instant), preserved
under concurrent booking attempts for the same slot (serialized by the
store's atomic conditional insert): starting from a store in which the slot
is free, exactly one attempt creates an appointment, every other attempt
fails with `ConflictError`, and the final store satisfies the invariant. -/
theorem scheduled_unique_under_concurrent_booking (s : Store) (nid : Nat)
    (d : String) (t : Nat) (reqs : List (String × Option String))
    (hfree : hasScheduledAt s d t = false) (hne : reqs ≠ [])
    (hinv : uniqueScheduled s) :
    (runBookings s nid d t reqs).1.countP isCreated = 1 ∧
    (runBookings s nid d t reqs).1.count BookResult.conflict = reqs.length - 1 ∧
    uniqueScheduled (runBookings s nid d t reqs).2 := by
  match reqs, hne with
  | (p, notes) :: rest, _ =>
    have hbook : bookAppointment s nid d p t notes =
        (BookResult.created (newAppt nid d p t notes), newAppt nid d p t notes :: s) := by
      simp [bookAppointment, hfree]
    have htaken := hasScheduledAt_after_insert s nid d p t notes
    have hrest := runBookings_taken (newAppt nid d p t notes :: s) (nid + 1) d t rest htaken
    have hrun : runBookings s nid d t ((p, notes) :: rest) =
        (BookResult.created (newAppt nid d p t notes) ::
          rest.map (fun _ => BookResult.conflict), newAppt nid d p t notes :: s) := by
      simp [runBookings, hbook, hrest]
    refine ⟨?_, ?_, ?_⟩
    · rw [hrun]
      simp [List.countP_cons, isCreated, List.countP_map, Function.comp_def]
    · rw [hrun]
      simp [List.count_cons, List.map_const', List.count_replicate_self]
    · rw [hrun]
      have := bookAppointment_preserves s nid d p t notes hinv
      rw [hbook] at this
      exact this

theorem scheduled_unique_under_concurrent_booking_witness :
    (runBookings [] 1 "dr-smith" 900 [("p1", none), ("p2", none)]).1.countP isCreated = 1 ∧
    (runBookings [] 1 "dr-smith" 900 [("p1", none), ("p2", none)]).1.count
        BookResult.conflict = 1 :=
  have h := scheduled_unique_under_concurrent_booking [] 1 "dr-smith" 900
    [("p1", none), ("p2", none)] (by decide) (by decide)
    (fun _ _ => Nat.zero_le 1)
  ⟨h.1, h.2.1⟩

/-! ## Availability Resolver: free slots (claim C3) -/

/-- The fixed slot duration, in minutes. -/
def slotDurationMinutes : Nat := 30

/-- Modelled from the spec: enumerate the fixed-duration slots across the
doctor's business hours `[dayStart, dayEnd)` (start instants, in minutes),
in ascending order. -/
def businessSlots (dayStart dayEnd : Nat) : List Nat :=
  (List.range ((dayEnd - dayStart) / slotDurationMinutes)).map
    (fun i => dayStart + slotDurationMinutes * i)

/-- Modelled from the spec: `getAvailability` of the Availability Resolver
(backend `tools_impl.py`, not in the available sources) — the enumerated
business-hours slots minus every slot whose start coincides with an
existing SCHEDULED appointment for the doctor.  A pure read: it is a plain
function of the store and performs no write. -/
def getAvailability (s : Store) (d : String) (dayStart dayEnd : Nat) : List Nat :=
  (businessSlots dayStart dayEnd).filter (fun t => !hasScheduledAt s d t)

lemma businessSlots_sorted (dayStart dayEnd : Nat) :
    List.Sorted (· < ·) (businessSlots dayStart dayEnd) := by
  unfold businessSlots
  rw [List.Sorted, List.pairwise_map]
  apply List.Pairwise.imp (R := (· < ·))
  · intro i j hij
    show dayStart + slotDurationMinutes * i < dayStart + slotDurationMinutes * j
    simp only [slotDurationMinutes]
    omega
  · exact List.pairwise_lt_range _

/-- C3: `getAvailability` returns the ordered enumeration of business-hours
slots minus every slot whose start coincides with a SCHEDULED appointment
for the doctor; in particular no returned slot start equals the scheduled
instant of any SCHEDULED appointment of that doctor. -/
theorem getAvailability_spec (s : Store) (d : String) (dayStart dayEnd : Nat) :
    List.Sorted (· < ·) (getAvailability s d dayStart dayEnd) ∧
    (∀ t, t ∈ getAvailability s d dayStart dayEnd ↔
      t ∈ businessSlots dayStart dayEnd ∧ hasScheduledAt s d t = false) ∧
    (∀ t ∈ getAvailability s d dayStart dayEnd, ∀ a ∈ s,
      a.doctorId = d → a.status = Status.SCHEDULED → a.instant ≠ t) := by
  refine ⟨?_, ?_, ?_⟩
  · exact List.Pairwise.sublist (List.filter_sublist _)
      (businessSlots_sorted dayStart dayEnd)
  · intro t
    simp [getAvailability, List.mem_filter]
  · intro t ht a ha hdoc hstat hinst
    have hmem : t ∈ (businessSlots dayStart dayEnd).filter
        (fun t => !hasScheduledAt s d t) := ht
    have hfree : hasScheduledAt s d t = false := by
      have := List.mem_filter.mp hmem
      simpa using this.2
    unfold hasScheduledAt at hfree
    rw [List.any_eq_false] at hfree
    exact hfree a ha (by simp [isScheduledFor, hdoc, hstat, hinst])

theorem getAvailability_spec_witness :
    (newAppt 1 "dr-ahuja" "p1" 930 none).instant ≠ 900 :=
  (getAvailability_spec [newAppt 1 "dr-ahuja" "p1" 930 none] "dr-ahuja" 900 1020).2.2
    900 (by decide) (newAppt 1 "dr-ahuja" "p1" 930 none) (by decide) rfl rfl

/-! ## Agent Orchestrator: bounded planning loop (claim C4) -/

/-- A planning-step decision of the language model: a tool call or a final
natural-language reply. -/
inductive Decision where
  | toolCall (name args : String)
  | finalReply (text : String)

/-- Whether a decision is a tool call. -/
def Decision.isToolCall : Decision → Bool
  | Decision.toolCall _ _ => true
  | Decision.finalReply _ => false

/-- Terminal outcome of one orchestrator run: `replied` (the model's final
text) or `aborted` (the loop bound was hit). -/
inductive RunOutcome where
  | replied (text : String)
  | aborted (text : String)
deriving DecidableEq, Repr

/-- The deterministic fallback reply produced when the planning-loop bound
is reached without a final reply. -/
def fallbackReply : String := "unable to complete the request; please rephrase or retry"

/-- Modelled from the spec: the Agent Orchestrator planning loop (backend
`agent.py`, not in the available sources).  `model` is the language model's
next-action choice given the accumulated history, `invoke` the Tool
Registry producing an observation (a tool result or an error such as a
`ValidationError` text) — both arbitrary, so every adversarial sequence of
decisions and tool results is covered.  `fuel` is the remaining number of
planning iterations; the returned `Nat` counts the iterations performed.
The recursion is structural on `fuel`, so the loop terminates for every
`model`/`invoke` behavior. -/
def runLoop (model : List String → Decision) (invoke : String → String → String) :
    Nat → List String → RunOutcome × Nat
  | 0, _ => (RunOutcome.aborted fallbackReply, 0)
  | fuel + 1, hist =>
    match model hist with
    | Decision.finalReply text => (RunOutcome.replied text, 1)
    | Decision.toolCall name args =>
      let rest := runLoop model invoke fuel (hist ++ [invoke name args])
      (rest.1, rest.2 + 1)

/-- C4: for every prompt history and every (possibly adversarial) sequence
of model decisions and tool results, the planning loop performs at most
`fuel` iterations and ends in `replied` or in `aborted` with the
deterministic fallback reply; a model that never produces a final reply
always ends in `ABORTED` with the fallback reply. -/
theorem runLoop_bounded (model : List String → Decision)
    (invoke : String → String → String) (fuel : Nat) (hist : List String) :
    (runLoop model invoke fuel hist).2 ≤ fuel ∧
    ((∃ text, (runLoop model invoke fuel hist).1 = RunOutcome.replied text) ∨
      (runLoop model invoke fuel hist).1 = RunOutcome.aborted fallbackReply) ∧
    ((∀ h, (model h).isToolCall = true) →
      (runLoop model invoke fuel hist).1 = RunOutcome.aborted fallbackReply) := by
  induction fuel generalizing hist with
  | zero => exact ⟨Nat.le_refl 0, Or.inr rfl, fun _ => rfl⟩
  | succ fuel ih =>
    rcases hm : model hist with ⟨name, args⟩ | ⟨text⟩
    · refine ⟨?_, ?_, ?_⟩
      · have := (ih (hist ++ [invoke name args])).1
        simp only [runLoop, hm]
        omega
      · have := (ih (hist ++ [invoke name args])).2.1
        simpa only [runLoop, hm] using this
      · intro hall
        have := (ih (hist ++ [invoke name args])).2.2 hall
        simpa only [runLoop, hm] using this
    · refine ⟨?_, ?_, ?_⟩
      · simp only [runLoop, hm]
        omega
      · exact Or.inl ⟨text, by simp only [runLoop, hm]⟩
      · intro hall
        have := hall hist
        rw [hm] at this
        simp [Decision.isToolCall] at this

theorem runLoop_bounded_witness :
    (runLoop (fun _ => Decision.toolCall "book_appointment" "bad-args")
      (fun _ _ => "ValidationError") 6 []).1 = RunOutcome.aborted fallbackReply :=
  (runLoop_bounded (fun _ => Decision.toolCall "book_appointment" "bad-args")
    (fun _ _ => "ValidationError") 6 []).2.2 (fun _ => rfl)

/-! ## Notification Dispatcher (claim C5) -/

/-- Outcome of one channel in the dispatch chain. -/
inductive ChannelOutcome where
  | delivered
  | failed
  | skipped
deriving DecidableEq, Repr

/-- A notification channel: its name and the fixed number of attempts it
may make before being marked failed. -/
structure Channel where
  name : String
  maxAttempts : Nat
deriving DecidableEq, Repr

/-- Modelled from the spec: one channel is retried up to its attempt count;
`transport ch i` tells whether the channel `ch`'s attempt number `i`
succeeds. -/
def attemptChannel (transport : String → Nat → Bool) (c : Channel) : Bool :=
  (List.range c.maxAttempts).any (fun i => transport c.name i)

/-- Modelled from the spec: the dispatch chain walk.  `done` records
whether some earlier channel already delivered; later channels are then
marked skipped.  On failure the next channel is tried immediately. -/
def sendChain (transport : String → Nat → Bool) :
    List Channel → Bool → List (String × ChannelOutcome) × Bool
  | [], done => ([], done)
  | c :: rest, true =>
    let out := sendChain transport rest true
    ((c.name, ChannelOutcome.skipped) :: out.1, out.2)
  | c :: rest, false =>
    if attemptChannel transport c then
      let out := sendChain transport rest true
      ((c.name, ChannelOutcome.delivered) :: out.1, out.2)
    else
      let out := sendChain transport rest false
      ((c.name, ChannelOutcome.failed) :: out.1, out.2)

/-- Modelled from the spec: `NotificationDispatcher.send` (backend
`services/notification`, not in the available sources): attempt the
channels in priority order and report the ordered per-channel outcomes
together with the overall `delivered` flag. -/
def dispatcherSend (transport : String → Nat → Bool) (channels : List Channel) :
    List (String × ChannelOutcome) × Bool :=
  sendChain transport channels false

lemma sendChain_delivered_iff (transport : String → Nat → Bool)
    (channels : List Channel) (done : Bool) :
    (sendChain transport channels done).2 =
      ((sendChain transport channels done).1.any
        (fun p => p.2 == ChannelOutcome.delivered) || done) := by
  induction channels generalizing done with
  | nil => simp [sendChain]
  | cons c rest ih =>
    cases done with
    | true => simp [sendChain, ih]
    | false =>
      by_cases h : attemptChannel transport c
      · simp [sendChain, h, ih]
      · simp [sendChain, h, ih]

/-- C5: `send` returns the ordered list of per-channel outcomes and
`delivered` is true iff at least one channel delivered; concretely, with
the primary channel failing on both of its attempts and the secondary
channel succeeding, the primary is marked failed, the secondary delivered,
and `delivered = true`. -/
theorem dispatcherSend_spec (transport : String → Nat → Bool)
    (channels : List Channel) :
    ((dispatcherSend transport channels).2 =
      (dispatcherSend transport channels).1.any
        (fun p => p.2 == ChannelOutcome.delivered)) ∧
    dispatcherSend (fun n _ => n == "email") [⟨"team-chat", 2⟩, ⟨"email", 2⟩] =
      ([("team-chat", ChannelOutcome.failed), ("email", ChannelOutcome.delivered)],
        true) := by
  constructor
  · have := sendChain_delivered_iff transport channels false
    simpa [dispatcherSend] using this
  · rfl

/-! ## JSON values and the zod schemas of the Next.js proxy routes -/

/-- A JSON value, as received by the route handlers. -/
inductive JVal where
  | jnull
  | jbool (b : Bool)
  | jnum (n : Int)
  | jstr (s : String)
  | jarr (xs : List JVal)
  | jobj (fields : List (String × JVal))

/-- Field lookup in a JSON object's field list (first match). -/
def jlookup : List (String × JVal) → String → Option JVal
  | [], _ => none
  | (k, v) :: rest, key => if k = key then some v else jlookup rest key

/-- Field lookup on a JSON value: `none` unless an object with the key. -/
def JVal.lookup : JVal → String → Option JVal
  | JVal.jobj fields, key => jlookup fields key
  | _, _ => none

/-- Split a character list on a separator character. -/
def splitOnChar (c : Char) : List Char → List (List Char)
  | [] => [[]]
  | x :: xs =>
    let r := splitOnChar c xs
    if x = c then [] :: r
    else
      match r with
      | [] => [[x]]
      | g :: gs => (x :: g) :: gs

/-- Model of zod's `z.string().email()` check (simplified to its shape:
one `@`, nonempty local part, and a dotted nonempty domain). -/
def isEmailStr (s : String) : Bool :=
  match splitOnChar '@' s.toList with
  | [lp, dom] =>
    !lp.isEmpty && !dom.isEmpty &&
    (let parts := splitOnChar '.' dom
     decide (parts.length ≥ 2) && parts.all (fun part => !part.isEmpty))
  | _ => false

/-- Model of the date part of zod's `z.string().datetime()` regex:
`YYYY-MM-DD`, digits only. -/
def isDateChars (d : List Char) : Bool :=
  match splitOnChar '-' d with
  | [y, m, dd] =>
    decide (y.length = 4) && decide (m.length = 2) && decide (dd.length = 2) &&
    (y ++ m ++ dd).all Char.isDigit
  | _ => false

/-- Model of the time part of zod's `z.string().datetime()` regex:
`HH:MM:SS(.fraction)?Z`. -/
def isTimeChars (t : List Char) : Bool :=
  match t.getLast? with
  | some 'Z' =>
    (match splitOnChar ':' t.dropLast with
     | [hh, mm, sec] =>
       decide (hh.length = 2) && decide (mm.length = 2) &&
       (hh ++ mm).all Char.isDigit &&
       (match splitOnChar '.' sec with
        | [ss] => decide (ss.length = 2) && ss.all Char.isDigit
        | [ss, frac] =>
          decide (ss.length = 2) && ss.all Char.isDigit &&
          !frac.isEmpty && frac.all Char.isDigit
        | _ => false)
     | _ => false)
  | _ => false

/-- Model of zod's `z.string().datetime()` validator (UTC ISO-8601). -/
def isIsoDatetime (s : String) : Bool :=
  match splitOnChar 'T' s.toList with
  | [d, t] => isDateChars d && isTimeChars t
  | _ => false

/-- One required-string field check of a zod object schema: absent field,
non-string field, or a failing refinement yields the field's issue. -/
def stringFieldIssue (body : JVal) (k : String)
    (check : String → Option String) : Option (String × String) :=
  match body.lookup k with
  | none => some (k, "Required")
  | some (JVal.jstr s) => (check s).map (fun m => (k, m))
  | some _ => some (k, "Expected string")

/-- Embedded from `registerSchema` (src register route): name min 1
("Name is required"), email ("Invalid email"), password min 6
("Password must be at least 6 characters"), role enum PATIENT/DOCTOR,
specialization optional nullable string.  Issues are produced in schema
field order, as zod's `safeParse` reports them. -/
def registerIssues (body : JVal) : List (String × String) :=
  [stringFieldIssue body "name"
      (fun s => if s.length ≥ 1 then none else some "Name is required"),
   stringFieldIssue body "email"
      (fun s => if isEmailStr s then none else some "Invalid email"),
   stringFieldIssue body "password"
      (fun s => if s.length ≥ 6 then none else some "Password must be at least 6 characters"),
   stringFieldIssue body "role"
      (fun s => if s = "PATIENT" ∨ s = "DOCTOR" then none else some "Invalid enum value"),
   (match body.lookup "specialization" with
    | none => none
    | some JVal.jnull => none
    | some (JVal.jstr _) => none
    | some _ => some ("specialization", "Expected string"))].filterMap id

/-- Embedded from `createSchema` (src/app/api/appointments/route.ts):
doctorId string min 1, dateTime string datetime, notes optional string. -/
def createIssues (body : JVal) : List (String × String) :=
  [stringFieldIssue body "doctorId"
      (fun s => if s.length ≥ 1 then none
                else some "String must contain at least 1 character(s)"),
   stringFieldIssue body "dateTime"
      (fun s => if isIsoDatetime s then none else some "Invalid datetime"),
   (match body.lookup "notes" with
    | none => none
    | some (JVal.jstr _) => none
    | some _ => some ("notes", "Expected string"))].filterMap id

/-- Embedded from `updateSchema` (src/app/api/appointments/[id]/route.ts):
`{ status: z.enum(["SCHEDULED", "COMPLETED", "CANCELLED"]) }`. -/
def updateIssues (body : JVal) : List (String × String) :=
  match body.lookup "status" with
  | none => [("status", "Required")]
  | some (JVal.jstr s) =>
    if s = "SCHEDULED" ∨ s = "COMPLETED" ∨ s = "CANCELLED" then []
    else [("status", "Invalid enum value")]
  | some _ => [("status", "Expected string")]

/-! ## The Next.js proxy route handlers -/

/-- The NextAuth session user, with the role attached by the jwt/session
callbacks (src lib/auth.ts). -/
structure SessUser where
  role : String
deriving DecidableEq, Repr

/-- The NextAuth session as the routes read it: possible user and possible
backend access token. -/
structure Sess where
  user : Option SessUser
  accessToken : Option String
deriving DecidableEq, Repr

/-- The FastAPI backend's response to a forwarded request, as the route
sees it: `ok`, HTTP status, optional `detail` message. -/
structure BackendResp where
  ok : Bool
  status : Nat
  detail : Option String
deriving DecidableEq, Repr

/-- A route handler's observable result: HTTP status, the `message` field
of the JSON body (when one is set), and whether the backend was called. -/
structure RouteResponse where
  status : Nat
  message : Option String
  backendCalled : Bool
deriving DecidableEq, Repr

/-- Embedded from `POST` of the register route (src auth/register): parse
the body with `registerSchema.safeParse`; on failure reply 400 with the
first issue's message (`parsed.error.errors[0]?.message ?? "Invalid
input"`) without calling the backend; on success forward to the backend.
`body = none` models a request whose JSON parsing threw (the catch
branch). -/
def registerPOST (body : Option JVal) (backend : BackendResp) : RouteResponse :=
  match body with
  | none => ⟨500, some "Registration failed. Please try again.", false⟩
  | some b =>
    match registerIssues b with
    | [] =>
      if backend.ok then ⟨200, none, true⟩
      else ⟨backend.status, some (backend.detail.getD "Registration failed"), true⟩
    | (_, m) :: _ => ⟨400, some m, false⟩

/-- Embedded from `POST` of src/app/api/appointments/route.ts: 401 without
a session user, 403 for a non-PATIENT role, 401 without an access token,
then `createSchema.safeParse` — 400 "Invalid input" on failure without
calling the backend — then forward to the backend. -/
def appointmentsPOST (session : Option Sess) (body : Option JVal)
    (backend : BackendResp) : RouteResponse :=
  match session with
  | none => ⟨401, some "Unauthorized", false⟩
  | some sess =>
    match sess.user with
    | none => ⟨401, some "Unauthorized", false⟩
    | some u =>
      if u.role ≠ "PATIENT" then
        ⟨403, some "Only patients can book appointments", false⟩
      else
        match sess.accessToken with
        | none => ⟨401, some "Not authenticated", false⟩
        | some _ =>
          match body with
          | none => ⟨500, some "Failed to create appointment", false⟩
          | some b =>
            match createIssues b with
            | [] =>
              if backend.ok then ⟨200, none, true⟩
              else ⟨backend.status,
                    some (backend.detail.getD "Failed to create appointment"), true⟩
            | _ :: _ => ⟨400, some "Invalid input", false⟩

/-- Embedded from `PATCH` of src/app/api/appointments/[id]/route.ts: 401
without session user or token, then `updateSchema.safeParse` — 400
"Invalid input" on failure — then forward the status update for the given
appointment id to the backend. -/
def appointmentPATCH (session : Option Sess) (body : Option JVal)
    (backend : BackendResp) : RouteResponse :=
  match session with
  | none => ⟨401, some "Unauthorized", false⟩
  | some sess =>
    match sess.user with
    | none => ⟨401, some "Unauthorized", false⟩
    | some _ =>
      match sess.accessToken with
      | none => ⟨401, some "Not authenticated", false⟩
      | some _ =>
        match body with
        | none => ⟨500, some "Failed to update appointment", false⟩
        | some b =>
          match updateIssues b with
          | [] =>
            if backend.ok then ⟨200, none, true⟩
            else ⟨backend.status,
                  some (backend.detail.getD "Failed to update appointment"), true⟩
          | _ :: _ => ⟨400, some "Invalid input", false⟩

/-- C6: requests whose argument record does not match the declared schema
fail with HTTP 400 naming the offending field — the register route with
the first offending field's message, the appointment-creation route with
the fixed message "Invalid input" — and the backend is not called;
well-formed arguments reach the backend. -/
theorem route_validation (body : JVal) (backend : BackendResp)
    (sess : Sess) (u : SessUser) (tok : String)
    (hu : sess.user = some u) (hrole : u.role = "PATIENT")
    (htok : sess.accessToken = some tok) :
    (∀ f m rest, registerIssues body = (f, m) :: rest →
      registerPOST (some body) backend = ⟨400, some m, false⟩) ∧
    (registerIssues body = [] →
      (registerPOST (some body) backend).backendCalled = true) ∧
    (∀ i rest, createIssues body = i :: rest →
      appointmentsPOST (some sess) (some body) backend =
        ⟨400, some "Invalid input", false⟩) ∧
    (createIssues body = [] →
      (appointmentsPOST (some sess) (some body) backend).backendCalled = true) := by
  obtain ⟨su, stok⟩ := sess
  simp only [Sess.user] at hu
  simp only [Sess.accessToken] at htok
  subst hu htok
  refine ⟨?_, ?_, ?_, ?_⟩
  · intro f m rest h
    simp [registerPOST, h]
  · intro h
    cases hb : backend.ok <;> simp [registerPOST, h, hb]
  · intro i rest h
    simp [appointmentsPOST, hrole, h]
  · intro h
    cases hb : backend.ok <;> simp [appointmentsPOST, hrole, h, hb]

theorem route_validation_witness :
    registerPOST (some (JVal.jobj [("name", JVal.jstr "Alice"),
        ("email", JVal.jstr "not-an-email"),
        ("password", JVal.jstr "secret123"),
        ("role", JVal.jstr "PATIENT")])) ⟨true, 200, none⟩ =
      ⟨400, some "Invalid email", false⟩ ∧
    appointmentsPOST (some ⟨some ⟨"PATIENT"⟩, some "tok"⟩)
        (some (JVal.jobj [("doctorId", JVal.jstr "d1"),
          ("dateTime", JVal.jstr "tomorrow at ten")])) ⟨true, 200, none⟩ =
      ⟨400, some "Invalid input", false⟩ ∧
    (appointmentsPOST (some ⟨some ⟨"PATIENT"⟩, some "tok"⟩)
        (some (JVal.jobj [("doctorId", JVal.jstr "d1"),
          ("dateTime", JVal.jstr "2025-06-02T15:00:00Z")])) ⟨true, 200, none⟩).backendCalled
      = true :=
  have h := route_validation (JVal.jobj [("name", JVal.jstr "Alice"),
    ("email", JVal.jstr "not-an-email"), ("password", JVal.jstr "secret123"),
    ("role", JVal.jstr "PATIENT")]) ⟨true, 200, none⟩
    ⟨some ⟨"PATIENT"⟩, some "tok"⟩ ⟨"PATIENT"⟩ "tok" rfl rfl rfl
  have h2 := route_validation (JVal.jobj [("doctorId", JVal.jstr "d1"),
    ("dateTime", JVal.jstr "tomorrow at ten")]) ⟨true, 200, none⟩
    ⟨some ⟨"PATIENT"⟩, some "tok"⟩ ⟨"PATIENT"⟩ "tok" rfl rfl rfl
  have h3 := route_validation (JVal.jobj [("doctorId", JVal.jstr "d1"),
    ("dateTime", JVal.jstr "2025-06-02T15:00:00Z")]) ⟨true, 200, none⟩
    ⟨some ⟨"PATIENT"⟩, some "tok"⟩ ⟨"PATIENT"⟩ "tok" rfl rfl rfl
  ⟨h.1 "email" "Invalid email" [] (by decide),
   h2.2.2.1 ("dateTime", "Invalid datetime") [] (by decide),
   h3.2.2.2 (by decide)⟩

/-- C10: an authenticated request to POST /api/appointments whose session
user role is not PATIENT gets HTTP 403 "Only patients can book
appointments" and the backend is never called, so no appointment can be
created through this route by a non-patient. -/
theorem appointmentsPOST_requires_patient (sess : Sess) (u : SessUser)
    (body : Option JVal) (backend : BackendResp)
    (hu : sess.user = some u) (hrole : u.role ≠ "PATIENT") :
    appointmentsPOST (some sess) body backend =
      ⟨403, some "Only patients can book appointments", false⟩ := by
  obtain ⟨su, stok⟩ := sess
  simp only [Sess.user] at hu
  subst hu
  simp [appointmentsPOST, hrole]

theorem appointmentsPOST_requires_patient_witness :
    appointmentsPOST (some ⟨some ⟨"DOCTOR"⟩, some "tok"⟩) none ⟨true, 200, none⟩ =
      ⟨403, some "Only patients can book appointments", false⟩ :=
  appointmentsPOST_requires_patient ⟨some ⟨"DOCTOR"⟩, some "tok"⟩ ⟨"DOCTOR"⟩
    none ⟨true, 200, none⟩ rfl (by decide)

/-! ## Appointment status transitions (claim C7) -/

/-- Parsing of the `status` string of an update request into a status. -/
def parseStatus (s : String) : Option Status :=
  if s = "SCHEDULED" then some Status.SCHEDULED
  else if s = "COMPLETED" then some Status.COMPLETED
  else if s = "CANCELLED" then some Status.CANCELLED
  else none

/-- Modelled from the spec: the backend's handling of a status-update
request (the backend PATCH handler is not in the available sources) —
status transitions SCHEDULED→COMPLETED or SCHEDULED→CANCELLED only;
terminal states are immutable, so a request against a COMPLETED or
CANCELLED appointment leaves the status unchanged. -/
def applyStatusUpdate (cur requested : Status) : Status :=
  match cur with
  | Status.SCHEDULED => requested
  | c => c

/-- C7: under the modelled update path a status only ever changes out of
SCHEDULED, a terminal status never changes again over any sequence of
update requests, and the route's `updateSchema` accepts exactly the three
status values (for any appointment id). -/
theorem status_transitions (cur requested : Status) (updates : List Status) :
    (applyStatusUpdate cur requested = cur ∨
      (cur = Status.SCHEDULED ∧ applyStatusUpdate cur requested = requested)) ∧
    (cur ≠ Status.SCHEDULED → updates.foldl applyStatusUpdate cur = cur) ∧
    (∀ s : String, updateIssues (JVal.jobj [("status", JVal.jstr s)]) = [] ↔
      (parseStatus s).isSome) := by
  refine ⟨?_, ?_, ?_⟩
  · cases cur with
    | SCHEDULED => exact Or.inr ⟨rfl, rfl⟩
    | COMPLETED => exact Or.inl rfl
    | CANCELLED => exact Or.inl rfl
  · intro hterm
    induction updates with
    | nil => rfl
    | cons u us ih =>
      have hstep : applyStatusUpdate cur u = cur := by
        cases cur with
        | SCHEDULED => exact absurd rfl hterm
        | COMPLETED => rfl
        | CANCELLED => rfl
      rw [List.foldl_cons, hstep]
      exact ih
  · intro s
    by_cases h1 : s = "SCHEDULED"
    · subst h1; simp [updateIssues, JVal.lookup, jlookup, parseStatus]
    · by_cases h2 : s = "COMPLETED"
      · subst h2; simp [updateIssues, JVal.lookup, jlookup, parseStatus]
      · by_cases h3 : s = "CANCELLED"
        · subst h3; simp [updateIssues, JVal.lookup, jlookup, parseStatus]
        · simp [updateIssues, JVal.lookup, jlookup, parseStatus, h1, h2, h3]

theorem status_transitions_witness :
    [Status.SCHEDULED, Status.CANCELLED].foldl applyStatusUpdate
      Status.COMPLETED = Status.COMPLETED :=
  (status_transitions Status.COMPLETED Status.CANCELLED
    [Status.SCHEDULED, Status.CANCELLED]).2.1 (by decide)

/-! ## Conversation Session Store (claim C8) -/

/-- One conversation turn: source (user, tool, assistant) and content. -/
structure ChatTurn where
  source : String
  content : String
deriving DecidableEq, Repr

/-- A conversation session: turn history, last-resolved entities (chosen
doctor and chosen day, used to fill ellipsis in follow-up prompts), and
the last-access time for idle expiry. -/
structure SessionData where
  turns : List ChatTurn
  lastDoctor : Option String
  lastDate : Option Nat
  lastAccess : Nat
deriving DecidableEq, Repr

/-- The fresh session a new or stale conversation starts from. -/
def freshSession (now : Nat) : SessionData := ⟨[], none, none, now⟩

/-- The session store: sessions keyed by their opaque id. -/
abbrev SessionStore := List (String × SessionData)

/-- First-match lookup of a session id in the store. -/
def lookupSession : SessionStore → String → Option SessionData
  | [], _ => none
  | (k, v) :: rest, key => if k = key then some v else lookupSession rest key

/-- Modelled from the spec: `get(sessionId)` of the Conversation Session
Store (backend, not in the available sources) — the stored session when
the id is known and within the inactivity threshold, otherwise a fresh
session: absent, unknown and expired ids start a new conversation rather
than raising an error. -/
def getSession (store : SessionStore) (sid : Option String)
    (now threshold : Nat) : SessionData :=
  match sid with
  | none => freshSession now
  | some id =>
    match lookupSession store id with
    | none => freshSession now
    | some sdata =>
      if now - sdata.lastAccess > threshold then freshSession now else sdata

/-- C8: for a sessionId that is absent, unknown, or refers to an expired
session, `get` returns a fresh session (the conversation starts anew, no
error); a live session is returned as stored. -/
theorem getSession_total (store : SessionStore) (sid : Option String)
    (now threshold : Nat) :
    (sid = none → getSession store sid now threshold = freshSession now) ∧
    (∀ id, sid = some id → lookupSession store id = none →
      getSession store sid now threshold = freshSession now) ∧
    (∀ id sdata, sid = some id → lookupSession store id = some sdata →
      now - sdata.lastAccess > threshold →
      getSession store sid now threshold = freshSession now) ∧
    (∀ id sdata, sid = some id → lookupSession store id = some sdata →
      ¬now - sdata.lastAccess > threshold →
      getSession store sid now threshold = sdata) := by
  refine ⟨?_, ?_, ?_, ?_⟩
  · intro h; subst h; rfl
  · intro id h hl; subst h; simp [getSession, hl]
  · intro id sdata h hl hexp; subst h; simp [getSession, hl, hexp]
  · intro id sdata h hl hexp; subst h; simp [getSession, hl, hexp]

theorem getSession_total_witness :
    getSession [] (some "gone-id") 100 30 = freshSession 100 ∧
    getSession [("s1", ⟨[], none, none, 5⟩)] (some "s1") 100 30 = freshSession 100 ∧
    getSession [("s1", ⟨[], none, none, 90⟩)] (some "s1") 100 30 =
      (⟨[], none, none, 90⟩ : SessionData) :=
  ⟨(getSession_total [] (some "gone-id") 100 30).2.1 "gone-id" rfl rfl,
   (getSession_total [("s1", ⟨[], none, none, 5⟩)] (some "s1") 100 30).2.2.1
     "s1" ⟨[], none, none, 5⟩ rfl rfl (by decide),
   (getSession_total [("s1", ⟨[], none, none, 90⟩)] (some "s1") 100 30).2.2.2
     "s1" ⟨[], none, none, 90⟩ rfl rfl (by decide)⟩

/-! ## Multi-turn continuity (claim C9) -/

/-- The chat request body built by `PatientChat.send`
(src/app/dashboard/assistant/page.tsx): prompt, the component's current
`sessionId` state as `session_id`, and role "patient". -/
structure ChatRequest where
  prompt : String
  session_id : Option String
  role : String
deriving DecidableEq, Repr

/-- Embedded from `PatientChat.send`: the request carries the current
client-side session id. -/
def buildChatRequest (prompt : String) (cur : Option String) : ChatRequest :=
  ⟨prompt, cur, "patient"⟩

/-- A reply as the client observes it: HTTP ok flag and, when the body
parsed as JSON, the reply's optional `session_id` and text. -/
structure ChatResponse where
  ok : Bool
  parsed : Option (Option String × String)
deriving DecidableEq, Repr

/-- Embedded from `PatientChat.send`: the client's `sessionId` state after
a response — `data.session_id ?? null` on success, unchanged on an HTTP
error or a JSON parse failure. -/
def clientNextSessionId (cur : Option String) (resp : ChatResponse) :
    Option String :=
  if resp.ok then
    match resp.parsed with
    | some (sid, _) => sid
    | none => cur
  else cur

/-- Modelled from the spec: filling ellipsis in a follow-up booking prompt
("book the 10:00 slot") from the session's last-resolved entities — the
chosen doctor and day stored in turn 1 plus the slot's minutes-of-day give
the booking target. -/
def resolveEllipticalBooking (sess : SessionData) (slotMinutes : Nat) :
    Option (String × Nat) :=
  match sess.lastDoctor, sess.lastDate with
  | some d, some day => some (d, day + slotMinutes)
  | _, _ => none

/-- C9: after turn 1 resolves "Dr. Ahuja, tomorrow morning" into the
session (stored doctor and day) and replies with a session id, the client
carries that id into the turn-2 request "book the 10:00 slot"; the store
returns the same live session, the elliptical booking resolves to Dr.
Ahuja at 10:00 (minute 600) of the stored day without re-stating the
doctor, and booking it creates a SCHEDULED appointment for exactly that
doctor and instant. -/
theorem multi_turn_continuity (cur : Option String) (resp : ChatResponse)
    (sid reply : String) (store : SessionStore) (sess1 : SessionData)
    (now threshold day nid : Nat) (appts : Store) (pat : String)
    (hok : resp.ok = true) (hparsed : resp.parsed = some (some sid, reply))
    (hstore : lookupSession store sid = some sess1)
    (hlive : now - sess1.lastAccess ≤ threshold)
    (hdoc : sess1.lastDoctor = some "Dr. Ahuja")
    (hday : sess1.lastDate = some day)
    (hfree : hasScheduledAt appts "Dr. Ahuja" (day + 600) = false) :
    (buildChatRequest "book the 10:00 slot"
        (clientNextSessionId cur resp)).session_id = some sid ∧
    getSession store (some sid) now threshold = sess1 ∧
    resolveEllipticalBooking sess1 600 = some ("Dr. Ahuja", day + 600) ∧
    (bookAppointment appts nid "Dr. Ahuja" pat (day + 600) none).1 =
      BookResult.created (newAppt nid "Dr. Ahuja" pat (day + 600) none) ∧
    (newAppt nid "Dr. Ahuja" pat (day + 600) none).doctorId = "Dr. Ahuja" ∧
    (newAppt nid "Dr. Ahuja" pat (day + 600) none).instant = day + 600 ∧
    (newAppt nid "Dr. Ahuja" pat (day + 600) none).status = Status.SCHEDULED := by
  refine ⟨?_, ?_, ?_, ?_, rfl, rfl, rfl⟩
  · simp [buildChatRequest, clientNextSessionId, hok, hparsed]
  · have : ¬now - sess1.lastAccess > threshold := by omega
    simp [getSession, hstore, this]
  · simp [resolveEllipticalBooking, hdoc, hday]
  · simp [bookAppointment, hfree]

theorem multi_turn_continuity_witness :
    (buildChatRequest "book the 10:00 slot"
        (clientNextSessionId none ⟨true, some (some "s1", "Free slots: 09:00, 10:00")⟩)).session_id
      = some "s1" ∧
    resolveEllipticalBooking ⟨[], some "Dr. Ahuja", some 1440, 5⟩ 600 =
      some ("Dr. Ahuja", 2040) ∧
    (bookAppointment [] 7 "Dr. Ahuja" "patient@example.com" 2040 none).1 =
      BookResult.created (newAppt 7 "Dr. Ahuja" "patient@example.com" 2040 none) :=
  have h := multi_turn_continuity none
    ⟨true, some (some "s1", "Free slots: 09:00, 10:00")⟩ "s1"
    "Free slots: 09:00, 10:00" [("s1", ⟨[], some "Dr. Ahuja", some 1440, 5⟩)]
    ⟨[], some "Dr. Ahuja", some 1440, 5⟩ 10 30 1440 7 [] "patient@example.com"
    rfl rfl (by decide) (by decide) rfl rfl (by decide)
  ⟨h.1, h.2.2.1, h.2.2.2.1⟩

end Dobble
